import Mathlib

/-!
Shallow embedding of the custom-hooks layer of the repository (the file
defining useCounter, useLocalStorage, useWindowSize, useApi, usePrevious,
useToggle, useDebounce and useForm).

The hooks are written on top of React's useState/useEffect, whose external
contract the surrounding specification fixes: a setter accepts either a
literal value or a pure function of the previous value, and within one
logical update batch the queued updates are applied left-to-right, each
functional update observing the latest pending value.  We embed that host
contract as `Update`/`applyUpdate`/`processBatch`, and translate each hook's
own code on top of it:

* `useCounter.increment`/`decrement`/`reset` are the updates the counter's
  callbacks enqueue (`setCount(prevCount => prevCount + 1)` etc.).
* `useLocalStorage.initValue` is the lazy `useState` initializer
  (`try getItem; item ? JSON.parse(item) : initialValue; catch => initialValue`),
  with JSON.parse abstracted as a `decode : String → Option α` parameter and
  a thrown read modelled as `Except.error ()`.
* `useLocalStorage.setValue` is the setter: it computes
  `valueToStore = value instanceof Function ? value(storedValue) : value`
  from the render-time snapshot `storedValue` captured by its closure,
  enqueues the *literal* `valueToStore` via `setStoredValue`, and then writes
  `encode valueToStore` to the store under `key`; a throwing
  `localStorage.setItem` (the `setFails` flag) is caught and logged, leaving
  the store unchanged while the enqueued in-memory update stands.
* `apiStep` is the per-event transition of useApi's state (`data`,
  `loading`, `error`): `start` is the synchronous prefix of `fetchData`
  (`setLoading(true); setError(null)`), `success r` is the continuation
  after a successful fetch (`setData(result)` then `finally setLoading(false)`),
  `failure msg` the catch branch (`setError(msg)` then `finally
  setLoading(false)`).  The source keeps no request token: every completion
  is applied unconditionally.
* `usePrevious.run` replays the hook over a list of per-render argument
  values: the render reads the ref, and the dependency-free effect then sets
  `ref.current = value` after the render commits.
* `useToggle.toggle`/`setTrue`/`setFalse` are the updates the toggle's
  callbacks enqueue (`setValue(prevValue => !prevValue)`, `setValue(true)`,
  `setValue(false)`).
* `useDebounce.fires` is a trace semantics of the debounce effect: each
  source update at time `t` clears the pending timer and schedules
  `setDebouncedValue` at `t + delay`; the timer fires only if no further
  update pre-empts it and the component is not torn down first.
* `useForm.setValue`/`setError`/`reset` are the form hook's callbacks,
  with the JavaScript truthiness test `if (errors[name])` embedded as
  `errTruthy`.
-/

namespace Hooks

/-- An argument to a React state setter, as the source's hooks use it:
either a literal value (`setValue(true)`) or a pure function of the previous
value (`setCount(prevCount => prevCount + 1)`). -/
inductive Update (α : Type) where
  | lit (v : α)
  | fn (f : α → α)

/-- Host contract: applying one queued update to the latest pending value. -/
def applyUpdate {α : Type} (s : α) : Update α → α
  | .lit v => v
  | .fn f => f s

/-- Host contract: within one logical batch, queued updates are applied
left-to-right over the value at batch start, each observing the result of
the previous one. -/
def processBatch {α : Type} (s : α) (us : List (Update α)) : α :=
  us.foldl applyUpdate s

/-- useCounter's increment callback enqueues `prevCount => prevCount + 1`. -/
def useCounter.increment : Update Int := .fn (fun c => c + 1)

/-- useCounter's decrement callback enqueues `prevCount => prevCount - 1`. -/
def useCounter.decrement : Update Int := .fn (fun c => c - 1)

/-- useCounter's reset callback enqueues the literal `initialValue`. -/
def useCounter.reset (initialValue : Int) : Update Int := .lit initialValue

/-- The key-value store behind `window.localStorage`: serialized strings by
key, `none` for a missing key. -/
def Store : Type := String → Option String

/-- Writing one key of the store (`localStorage.setItem`). -/
def Store.set (store : Store) (key s : String) : Store :=
  fun k => if k = key then some s else store k

/-- A store with no keys. -/
def emptyStore : Store := fun _ => none

/-- The lazy useState initializer of useLocalStorage:
`getItem` throwing (`Except.error ()`) or a missing key falls back to
`initialValue`; a present item is parsed only when truthy (non-empty), and a
parse failure (`decode` returning `none`, JSON.parse throwing in the source)
also falls back to `initialValue`.  No case raises. -/
def useLocalStorage.initValue {α : Type} (decode : String → Option α)
    (getResult : Except Unit (Option String)) (initialValue : α) : α :=
  match getResult with
  | .error _ => initialValue
  | .ok none => initialValue
  | .ok (some item) =>
    if item = "" then initialValue
    else
      match decode item with
      | some v => v
      | none => initialValue

/-- The `valueToStore` computed by useLocalStorage's setValue:
`value instanceof Function ? value(storedValue) : value`, where
`storedValue` is the render-time snapshot captured by the useCallback
closure. -/
def useLocalStorage.valueToStore {α : Type} (storedValue : α) (value : Update α) : α :=
  applyUpdate storedValue value

/-- The full effect of useLocalStorage's setValue: it enqueues the literal
`valueToStore` via `setStoredValue` (first component) and then persists
`encode valueToStore` under `key` (second component).  When
`localStorage.setItem` throws (`setFails = true`) the catch block only logs:
the store is unchanged, but `setStoredValue` has already run, so the
enqueued update stands. -/
def useLocalStorage.setValue {α : Type} (encode : α → String) (key : String)
    (storedValue : α) (value : Update α) (store : Store) (setFails : Bool) :
    Update α × Store :=
  let v := useLocalStorage.valueToStore storedValue value
  (Update.lit v, if setFails then store else Store.set store key (encode v))

/-- The state useApi keeps: `useState<T | null>(null)` for data,
`useState(false)` for loading, `useState<string | null>(null)` for error. -/
structure ApiState (α : Type) where
  data : Option α
  loading : Bool
  error : Option String

/-- The observable events of useApi's fetchData: `start` is the synchronous
prefix of a call (`setLoading(true); setError(null)`); `success result` is
the continuation of that call after `fetch` and `response.json()` resolve
(`setData(result)`, then `finally setLoading(false)`); `failure msg` is the
catch branch for a network error or a non-ok status
(`setError(msg)`, then `finally setLoading(false)`). -/
inductive ApiEvent (α : Type) where
  | start
  | success (result : α)
  | failure (msg : String)

/-- Initial useApi state: no data, not loading, no error. -/
def apiInit {α : Type} : ApiState α := ⟨none, false, none⟩

/-- One step of useApi's state.  The source keeps no request token, so each
completion event is applied to the state unconditionally, whichever fetch it
belongs to. -/
def apiStep {α : Type} (s : ApiState α) : ApiEvent α → ApiState α
  | .start => { s with loading := true, error := none }
  | .success r => { s with data := some r, loading := false }
  | .failure msg => { s with error := some msg, loading := false }

/-- Replay of a whole event trace of useApi. -/
def apiRun {α : Type} (s : ApiState α) (evts : List (ApiEvent α)) : ApiState α :=
  evts.foldl apiStep s

/-- Replay of usePrevious over the per-render values of its argument: each
render returns the current ref content (undefined on the first render), and
the dependency-free effect then writes `ref.current = value` after the
render commits. -/
def usePrevious.run {α : Type} (ref : Option α) : List α → List (Option α)
  | [] => []
  | v :: rest => ref :: usePrevious.run (some v) rest

/-- useToggle's toggle callback enqueues `prevValue => !prevValue`. -/
def useToggle.toggle : Update Bool := .fn (fun b => !b)

/-- useToggle's setTrue callback enqueues the literal `true`. -/
def useToggle.setTrue : Update Bool := .lit true

/-- useToggle's setFalse callback enqueues the literal `false`. -/
def useToggle.setFalse : Update Bool := .lit false

/-- Whether a timer scheduled to fire at `ft` survives teardown: with no
teardown it may fire; with teardown at `td` it fires only if its fire time
comes no later, since the effect cleanup (`clearTimeout`) cancels the
pending timer at teardown. -/
def okTime : Option Nat → Nat → Bool
  | none, _ => true
  | some td, ft => decide (ft ≤ td)

/-- Trace semantics of useDebounce's effect: for each source update
`(t, v)`, the effect (re-)runs at `t`, clearing the previously pending
timer and scheduling `setDebouncedValue(v)` at `t + delay`.  That timer
fires only if the next update (which re-runs the effect and clears it)
comes no earlier than `t + delay`, and it survives teardown; the timer of
the final update is cleared only by teardown.  The result lists every
`(fire time, value)` delivered downstream. -/
def useDebounce.fires {α : Type} (delay : Nat) (teardown : Option Nat) :
    List (Nat × α) → List (Nat × α)
  | [] => []
  | [(t, v)] => if okTime teardown (t + delay) = true then [(t + delay, v)] else []
  | (t, v) :: (t2, v2) :: rest =>
    (if t + delay ≤ t2 ∧ okTime teardown (t + delay) = true then [(t + delay, v)] else [])
      ++ useDebounce.fires delay teardown ((t2, v2) :: rest)

/-- The state useForm keeps: the `values` record and the `errors` record
(an error entry set to `undefined` is modelled as `none`, like an absent
entry, which is how JavaScript truthiness treats both). -/
structure FormState (V : Type) where
  values : String → Option V
  errors : String → Option String

/-- JavaScript truthiness of an error entry, as tested by
`if (errors[name])`: truthy iff present and a non-empty string. -/
def errTruthy : Option String → Bool
  | none => false
  | some s => s != ""

/-- Record update `{ ...prev, [name]: v }` at a single key. -/
def updateMap {β : Type} (m : String → Option β) (k : String) (v : Option β) :
    String → Option β :=
  fun x => if x = k then v else m x

/-- useForm's setValue: writes `values[name] = value`, and clears
`errors[name]` (sets it to `undefined`) only when the `if (errors[name])`
truthiness guard passes; otherwise `setErrors` is not called at all. -/
def useForm.setValue {V : Type} (name : String) (value : V) (st : FormState V) :
    FormState V :=
  { values := updateMap st.values name (some value)
    errors :=
      if errTruthy (st.errors name) = true then updateMap st.errors name none
      else st.errors }

/-- useForm's setError: writes `errors[name] = error`, leaving values
untouched. -/
def useForm.setError {V : Type} (name : String) (error : String)
    (st : FormState V) : FormState V :=
  { st with errors := updateMap st.errors name (some error) }

/-- useForm's reset: restores `values` to the captured `initialValues` and
sets `errors` to the empty record. -/
def useForm.reset {V : Type} (initialValues : String → Option V) : FormState V :=
  ⟨initialValues, fun _ => none⟩

/-- C1 counterexample: useApi keeps no request token, so the claim fails.
Two fetches overlap (two starts); the second fetch completes with result 2,
then the first, stale fetch completes with result 1.  The stale completion
overwrites the newer state: final data is `some 1`, not the `some 2` the
claim requires. -/
theorem useApi_stale_overwrite_counterexample :
    (apiRun (apiInit : ApiState Nat)
        [ApiEvent.start, ApiEvent.start, ApiEvent.success 2, ApiEvent.success 1]).data
      = some 1
    ∧ some (1 : Nat) ≠ some 2 :=
  ⟨rfl, by decide⟩

/-- C1 amended: useApi maintains no request token and applies every
completion to the state unconditionally, so the last completion to arrive
determines data/error; in particular, after overlapping fetches R1, R2
where R2's result d2 arrives before R1's result d1, the stale R1 completion
overwrites R2's state and data ends as d1. -/
theorem useApi_unconditional_completion :
    (∀ (α : Type) (s : ApiState α) (r : α),
        apiStep s (ApiEvent.success r) = { s with data := some r, loading := false })
    ∧ (∀ (α : Type) (s : ApiState α) (msg : String),
        apiStep s (ApiEvent.failure msg) = { s with error := some msg, loading := false })
    ∧ (∀ d1 d2 : Nat,
        apiRun (apiInit : ApiState Nat)
            [ApiEvent.start, ApiEvent.start, ApiEvent.success d2, ApiEvent.success d1]
          = ⟨some d1, false, none⟩) :=
  ⟨fun _ _ _ => rfl, fun _ _ _ => rfl, fun _ _ => rfl⟩

/-- C2 counterexample: useLocalStorage's setValue evaluates a functional
updater against the render-time snapshot `storedValue` captured by its
closure and enqueues the result as a literal.  Two `setValue(x => x + 1)`
calls issued in the same batch (same snapshot 0) therefore both enqueue the
literal 1 and the batch ends at 1, while the claimed left-fold of the
updaters over the batch-start value is 2. -/
theorem useLocalStorage_batch_counterexample :
    processBatch (0 : Nat)
        [(useLocalStorage.setValue Nat.repr "userName" 0
            (Update.fn (fun x => x + 1)) emptyStore false).1,
         (useLocalStorage.setValue Nat.repr "userName" 0
            (Update.fn (fun x => x + 1)) emptyStore false).1]
      = 1
    ∧ List.foldl (fun a f => f a) (0 : Nat) [fun x => x + 1, fun x => x + 1] = 2
    ∧ (1 : Nat) ≠ 2 :=
  ⟨rfl, rfl, by decide⟩

/-- C2 amended: functional updates enqueued directly with the setter (as
useCounter's mutators do) compose left-to-right within a batch, each
observing the previous result — a batch of n increments adds n; but
useLocalStorage's setValue converts every write into a literal computed
from its render-time snapshot, so a batch of such writes ends at the last
write's snapshot-computed value (last write wins), not at the left-fold of
the updaters. -/
theorem batch_semantics_amended {α : Type} :
    (∀ (s : α) (fs : List (α → α)),
        processBatch s (fs.map Update.fn) = fs.foldl (fun a f => f a) s)
    ∧ (∀ (s snap : α) (encode : α → String) (key : String) (store : Store)
        (us : List (Update α)) (h : us ≠ []),
        processBatch s
            (us.map (fun u => (useLocalStorage.setValue encode key snap u store false).1))
          = applyUpdate snap (us.getLast h))
    ∧ (∀ (s : Int) (n : Nat),
        processBatch s (List.replicate n useCounter.increment) = s + n) := by
  refine ⟨?_, ?_, ?_⟩
  · intro s fs
    induction fs generalizing s with
    | nil => rfl
    | cons f rest ih => simpa [processBatch, applyUpdate] using ih (f s)
  · intro s snap encode key store us h
    induction us generalizing s with
    | nil => exact absurd rfl h
    | cons u rest ih =>
      cases rest with
      | nil => rfl
      | cons u2 rest2 =>
        have h2 : (u2 :: rest2 : List (Update α)) ≠ [] := List.cons_ne_nil _ _
        rw [List.getLast_cons h2]
        simpa [processBatch, applyUpdate] using
          ih (applyUpdate snap u) h2
  · intro s n
    induction n generalizing s with
    | zero => simp [processBatch]
    | succ m ih =>
      rw [List.replicate_succ]
      have := ih (s + 1)
      simp only [processBatch, List.foldl_cons] at this ⊢
      rw [show applyUpdate s useCounter.increment = s + 1 from rfl, this]
      push_cast
      ring

/-- C2 amended, witness: a concrete batch of two functional writes through
useLocalStorage's setValue (snapshot 5) ends at the last write's
snapshot-computed value, 12. -/
theorem batch_semantics_amended_witness :
    processBatch (0 : Nat)
        (List.map
          (fun u => (useLocalStorage.setValue Nat.repr "userName" 5 u emptyStore false).1)
          [Update.fn (fun x => x + 1), Update.fn (fun x => x + 7)])
      = applyUpdate 5 (Update.fn (fun x => x + 7)) :=
  batch_semantics_amended.2.1 0 5 Nat.repr "userName" emptyStore
    [Update.fn (fun x => x + 1), Update.fn (fun x => x + 7)] (List.cons_ne_nil _ _)

/-- C4: after any event trace, a failing completion (network error or
non-ok HTTP status) leaves useApi with the failure description in `error`,
`loading = false` (the finally block always clears it, never a stuck
spinner), and `data` exactly as it was before the failure; the failure is
state, not an exception. -/
theorem useApi_failure_state {α : Type} (s : ApiState α)
    (evts : List (ApiEvent α)) (msg : String) :
    (apiRun s (evts ++ [ApiEvent.failure msg])).error = some msg
    ∧ (apiRun s (evts ++ [ApiEvent.failure msg])).loading = false
    ∧ (apiRun s (evts ++ [ApiEvent.failure msg])).data = (apiRun s evts).data := by
  simp [apiRun, List.foldl_append, apiStep]

/-- C5: useLocalStorage's setValue always enqueues the in-memory update
(`setStoredValue` runs before `localStorage.setItem`), so the new value
takes effect whether or not persistence fails; when persistence succeeds
the serialized value sits in the store under the same key; when
`setItem` throws, the store is untouched but the in-memory update stands. -/
theorem useLocalStorage_persistence {α : Type} (encode : α → String)
    (key : String) (storedValue : α) (value : Update α) (store : Store)
    (setFails : Bool) :
    (useLocalStorage.setValue encode key storedValue value store setFails).1
      = Update.lit (useLocalStorage.valueToStore storedValue value)
    ∧ (∀ pending : α,
        applyUpdate pending
            (useLocalStorage.setValue encode key storedValue value store setFails).1
          = useLocalStorage.valueToStore storedValue value)
    ∧ (useLocalStorage.setValue encode key storedValue value store false).2 key
      = some (encode (useLocalStorage.valueToStore storedValue value))
    ∧ (useLocalStorage.setValue encode key storedValue value store true).2 = store := by
  refine ⟨rfl, fun pending => rfl, ?_, rfl⟩
  simp [useLocalStorage.setValue, Store.set]

/-- C9: a Toggle created at false and toggled three times runs through the
value sequence false, true, false, true; and each mutator's effect on the
cell is a pure function of the previous value — toggle flips it, setTrue
yields true, setFalse yields false. -/
theorem useToggle_sequence :
    List.scanl applyUpdate false [useToggle.toggle, useToggle.toggle, useToggle.toggle]
      = [false, true, false, true]
    ∧ (∀ b : Bool, applyUpdate b useToggle.toggle = !b)
    ∧ (∀ b : Bool, applyUpdate b useToggle.setTrue = true)
    ∧ (∀ b : Bool, applyUpdate b useToggle.setFalse = false) :=
  ⟨rfl, fun _ => rfl, fun _ => rfl, fun _ => rfl⟩

/-- C3: writing v through setValue and then creating a fresh
useLocalStorage instance on the same key re-reads exactly v, provided the
serialization round-trips and serializes v to a truthy (non-empty) string;
and a failed first read — getItem throwing, a missing key, or a parse
failure — yields exactly the supplied default, without raising. -/
theorem useLocalStorage_roundtrip {α : Type} (decode : String → Option α)
    (encode : α → String) (key : String) (v snap init init2 : α)
    (store : Store) (hdec : decode (encode v) = some v)
    (hne : encode v ≠ "") :
    useLocalStorage.initValue decode
        (Except.ok
          ((useLocalStorage.setValue encode key snap (Update.lit v) store false).2 key))
        init2
      = v
    ∧ useLocalStorage.initValue decode (Except.error ()) init = init
    ∧ useLocalStorage.initValue decode (Except.ok none) init = init
    ∧ ∀ s : String, decode s = none →
        useLocalStorage.initValue decode (Except.ok (some s)) init = init := by
  refine ⟨?_, rfl, rfl, ?_⟩
  · have hkey :
        (useLocalStorage.setValue encode key snap (Update.lit v) store false).2 key
          = some (encode v) := by
      simp [useLocalStorage.setValue, useLocalStorage.valueToStore, applyUpdate, Store.set]
    rw [hkey]
    simp [useLocalStorage.initValue, hne, hdec]
  · intro s hs
    by_cases hempty : s = ""
    · simp [useLocalStorage.initValue, hempty]
    · simp [useLocalStorage.initValue, hempty, hs]

/-- C3 witness: with a concrete serialization that round-trips 5 as the
non-empty string "v5", writing 5 under "userName" into an empty store and
re-instantiating with default 0 reads back 5. -/
theorem useLocalStorage_roundtrip_witness :
    useLocalStorage.initValue (fun s => if s = "v5" then some 5 else none)
        (Except.ok
          ((useLocalStorage.setValue (fun n => if n = 5 then "v5" else "v")
              "userName" 0 (Update.lit 5) emptyStore false).2 "userName"))
        0
      = 5 :=
  (useLocalStorage_roundtrip (fun s => if s = "v5" then some 5 else none)
      (fun n => if n = 5 then "v5" else "v") "userName" 5 0 0 0
      emptyStore (by decide) (by decide)).1

/-- C6: useForm's contract — setValue writes the field's value and leaves
no observable (truthy) error on that field; setError writes the field's
error and leaves values untouched; reset restores the initial values and
empties the errors; and in particular setError on email followed by
setValue on email leaves errors.email absent and values.email equal to the
new value. -/
theorem useForm_contract {V : Type} :
    (∀ (st : FormState V) (f : String) (v : V),
        (useForm.setValue f v st).values f = some v
        ∧ errTruthy ((useForm.setValue f v st).errors f) = false)
    ∧ (∀ (st : FormState V) (f msg : String),
        (useForm.setError f msg st).errors f = some msg
        ∧ (useForm.setError f msg st).values = st.values)
    ∧ (∀ init : String → Option V,
        (useForm.reset init).values = init
        ∧ (useForm.reset init).errors = fun _ => none)
    ∧ ((useForm.setValue "email" "a@b.com"
          (useForm.setError "email" "x"
            (FormState.mk (fun _ => some "") (fun _ => none)))).errors "email" = none
       ∧ (useForm.setValue "email" "a@b.com"
            (useForm.setError "email" "x"
              (FormState.mk (fun _ => some "") (fun _ => none)))).values "email"
          = some "a@b.com") := by
  refine ⟨?_, ?_, ?_, ?_, ?_⟩
  · intro st f v
    constructor
    · simp [useForm.setValue, updateMap]
    · cases hb : errTruthy (st.errors f) with
      | false =>
        have he : (useForm.setValue f v st).errors = st.errors := by
          simp [useForm.setValue, hb]
        rw [he]
        exact hb
      | true =>
        have he : (useForm.setValue f v st).errors = updateMap st.errors f none := by
          simp [useForm.setValue, hb]
        rw [he]
        simp [updateMap, errTruthy]
  · intro st f msg
    exact ⟨by simp [useForm.setError, updateMap], rfl⟩
  · intro init
    exact ⟨rfl, rfl⟩
  · rfl
  · rfl

/-- C10: setValue on field f never touches another field's error — for
g ≠ f, errors[g] is unchanged — and when f carries no truthy error the
guard `if (errors[name])` fails, setErrors is never called, and the whole
errors record is unchanged. -/
theorem useForm_setValue_frame {V : Type} (st : FormState V) (f g : String)
    (v : V) :
    (f ≠ g → (useForm.setValue f v st).errors g = st.errors g)
    ∧ (errTruthy (st.errors f) = false → (useForm.setValue f v st).errors = st.errors) := by
  constructor
  · intro hfg
    by_cases h : errTruthy (st.errors f) = true
    · have hgf : ¬(g = f) := fun e => hfg e.symm
      simp [useForm.setValue, updateMap, h, hgf]
    · simp [useForm.setValue, h]
  · intro h
    simp [useForm.setValue, h]

/-- C10 witness: on a form with no errors, setValue on "email" leaves
"password"'s error entry — and the whole errors record — unchanged. -/
theorem useForm_setValue_frame_witness :
    (useForm.setValue "email" "a@b.com"
        (FormState.mk (V := String) (fun _ => some "") (fun _ => none))).errors "password"
      = none
    ∧ (useForm.setValue "email" "a@b.com"
        (FormState.mk (V := String) (fun _ => some "") (fun _ => none))).errors
      = (FormState.mk (V := String) (fun _ => some "") (fun _ => none)).errors :=
  ⟨by
    have h := useForm_setValue_frame
      (FormState.mk (V := String) (fun _ => some "") (fun _ => none)) "email" "password" "a@b.com"
    exact h.1 (by decide),
   by
    have h := useForm_setValue_frame
      (FormState.mk (V := String) (fun _ => some "") (fun _ => none)) "email" "password" "a@b.com"
    exact h.2 rfl⟩

/-- Helper for C8: replaying usePrevious from any ref content, the output
of render i+1 is the argument value of render i. -/
theorem usePrevious_run_getElem {α : Type} :
    ∀ (vs : List α) (r : Option α) (i : Nat), i + 1 < vs.length →
      (usePrevious.run r vs)[i + 1]? = (vs[i]?).map some := by
  intro vs
  induction vs with
  | nil => intro r i h; simp at h
  | cons v rest ih =>
    intro r i h
    cases i with
    | zero =>
      cases rest with
      | nil => simp at h
      | cons w rest2 => simp [usePrevious.run]
    | succ j =>
      have h2 : j + 1 < rest.length := by simpa using h
      simpa [usePrevious.run] using ih (some v) j h2

/-- C8: usePrevious returns absent (undefined) on the first render, and on
every later render returns the value its argument held on the previous
render — the ref is written only after each render commits, so the output
lags the argument by exactly one render. -/
theorem usePrevious_lag {α : Type} (vs : List α) (i : Nat) :
    (vs ≠ [] → (usePrevious.run none vs)[0]? = some none)
    ∧ (i + 1 < vs.length →
        (usePrevious.run none vs)[i + 1]? = (vs[i]?).map some) := by
  constructor
  · intro hne
    cases vs with
    | nil => exact absurd rfl hne
    | cons v rest => simp [usePrevious.run]
  · intro h
    exact usePrevious_run_getElem vs none i h

/-- C8 witness: over the render values 10, 20, 30, the first render yields
absent and the third render yields the second render's argument, 20. -/
theorem usePrevious_lag_witness :
    (usePrevious.run none [10, 20, 30])[0]? = some (none : Option Nat)
    ∧ (usePrevious.run none [10, 20, 30])[2]? = some (some 20) :=
  ⟨(usePrevious_lag [10, 20, 30] 1).1 (List.cons_ne_nil _ _),
   by simpa using (usePrevious_lag [10, 20, 30] 1).2 (by decide)⟩

/-- Helper for C7: under a burst (every update arrives strictly less than
delay after its predecessor), every non-final timer is cleared by the next
effect run, so the fire list is the final update's timer alone — delivered
at its scheduled time iff it survives teardown. -/
theorem fires_burst {α : Type} (delay : Nat) (tw : Option Nat) :
    ∀ (us : List (Nat × α)) (hne : us ≠ []),
      List.Chain' (fun a b => b.1 < a.1 + delay) us →
      useDebounce.fires delay tw us
        = if okTime tw ((us.getLast hne).1 + delay) = true then
            [((us.getLast hne).1 + delay, (us.getLast hne).2)]
          else [] := by
  intro us
  induction us with
  | nil => intro hne; exact absurd rfl hne
  | cons a rest ih =>
    intro hne hch
    cases rest with
    | nil =>
      obtain ⟨t, v⟩ := a
      simp [useDebounce.fires]
    | cons b rest2 =>
      obtain ⟨t, v⟩ := a
      obtain ⟨t2, v2⟩ := b
      have hlt : t2 < t + delay := (List.chain'_cons.mp hch).1
      have hch2 := (List.chain'_cons.mp hch).2
      have hne2 : ((t2, v2) :: rest2 : List (Nat × α)) ≠ [] := List.cons_ne_nil _ _
      have hnofire : ¬(t + delay ≤ t2 ∧ okTime tw (t + delay) = true) :=
        fun hc => absurd hc.1 (Nat.not_le.mpr hlt)
      rw [useDebounce.fires, if_neg hnofire, List.nil_append,
        List.getLast_cons hne2]
      exact ih hne2 hch2

/-- C7: for a burst of source updates each spaced strictly less than delay
after the previous one, only the final value of the burst is ever delivered
downstream, exactly delay after the final update (hence no earlier than
delay after it) — every earlier update's pending timer is cleared and
rescheduled by the next one — and if teardown occurs before that fire time,
the pending timer is cleared on teardown and nothing is ever delivered. -/
theorem useDebounce_burst {α : Type} (delay : Nat) (us : List (Nat × α))
    (hne : us ≠ [])
    (hb : List.Chain' (fun a b => b.1 < a.1 + delay) us) :
    useDebounce.fires delay none us
      = [((us.getLast hne).1 + delay, (us.getLast hne).2)]
    ∧ ∀ td : Nat, td < (us.getLast hne).1 + delay →
        useDebounce.fires delay (some td) us = [] := by
  constructor
  · have h := fires_burst delay none us hne hb
    simpa [okTime] using h
  · intro td htd
    have h := fires_burst delay (some td) us hne hb
    rw [h, if_neg]
    simp [okTime]
    exact htd

/-- C7 witness: three updates at times 0, 5, 9 with delay 10 form a burst;
with no teardown only the final value "c" is delivered, at time 19, and
with teardown at time 15 nothing is ever delivered. -/
theorem useDebounce_burst_witness :
    useDebounce.fires 10 none [((0 : Nat), "a"), (5, "b"), (9, "c")] = [(19, "c")]
    ∧ useDebounce.fires 10 (some 15) [((0 : Nat), "a"), (5, "b"), (9, "c")] = [] := by
  have h := useDebounce_burst 10 [((0 : Nat), "a"), (5, "b"), (9, "c")]
    (List.cons_ne_nil _ _)
    (by norm_num [List.chain'_cons, List.chain'_singleton])
  exact ⟨h.1, h.2 15 (by decide)⟩

end Hooks
